import Mathlib

/-!
Shallow embedding of the GregoBaseExtract repository
(scripts/extract_tables.py and scripts/unify_chants.py) in Lean 4,
together with theorems settling the frozen claims about its
specification.

Strings are modelled by Lean `String` / `List Char`; Python string
primitives (strip, rstrip, startswith, endswith, upper, find, split)
are given direct executable counterparts below.
-/

/-- Python `s.strip()`: remove leading and trailing whitespace. -/
def pyStrip (s : String) : String :=
  String.mk (((s.data.dropWhile Char.isWhitespace).reverse.dropWhile Char.isWhitespace).reverse)

/-- Python `raw.rstrip("\n")`: remove trailing newline characters. -/
def rstripNL (s : String) : String :=
  String.mk ((s.data.reverse.dropWhile (fun c => c == '\n')).reverse)

/-- Python `s.rstrip(";\n\r ")` used on the VALUES blob. -/
def rstripSemiSet (s : String) : String :=
  String.mk ((s.data.reverse.dropWhile (fun c => c == ';' || c == '\n' || c == '\r' || c == ' ')).reverse)

/-- Python `s.upper()` (character-wise, ASCII as used by the dump). -/
def upperS (s : String) : String :=
  String.mk (s.data.map Char.toUpper)

/-- Python `s.startswith(t)`. -/
def startsWithS (s t : String) : Bool :=
  t.data.isPrefixOf s.data

/-- Python `s.endswith(t)`. -/
def endsWithS (s t : String) : Bool :=
  t.data.isSuffixOf s.data

/-- Python `"\n".join(lines)`. -/
def joinNL : List String → String
  | [] => ""
  | [s] => s
  | s :: rest => s ++ "\n" ++ joinNL rest

/-- Python `s.split(",")` on the raw column-list text. -/
def splitComma : List Char → List (List Char)
  | [] => [[]]
  | c :: rest =>
    match splitComma rest with
    | [] => [[]]
    | g :: gs => if c == ',' then [] :: g :: gs else (c :: g) :: gs

/-- The backtick character (obtained from a string literal). -/
def btChar : Char := "`".data.headD ' '

/-- Python `s.strip(backtick)`: remove leading and trailing backticks. -/
def stripBT (s : String) : String :=
  String.mk (((s.data.dropWhile (fun c => c == btChar)).reverse.dropWhile (fun c => c == btChar)).reverse)

/-- Python `s.index(c)` as an `Option` (index of first occurrence of a character). -/
def findCharIdx : List Char → Char → Option Nat
  | [], _ => none
  | x :: rest, c => if x == c then some 0 else (findCharIdx rest c).map (· + 1)

/-- Python `s.index(c, start)` as an `Option`. -/
def findCharIdxFrom (cs : List Char) (c : Char) (start : Nat) : Option Nat :=
  (findCharIdx (cs.drop start) c).map (fun j => start + j)

/-- Python `s.find(pat)` as an `Option` (index of first substring occurrence). -/
def findSubstrIdx (pat : List Char) : List Char → Option Nat
  | [] => if pat == [] then some 0 else none
  | c :: rest =>
    if pat.isPrefixOf (c :: rest) then some 0
    else (findSubstrIdx pat rest).map (· + 1)

/-- The single-quote string, used to build SQL test inputs. -/
def sqS : String := String.mk ['\'']

/-- `sql_token_to_text` from scripts/extract_tables.py: a finalized
field whose text case-insensitively equals NULL decodes to the empty
string; any other token is kept verbatim. -/
def sql_token_to_text (token : String) : String :=
  if upperS token == "NULL" then "" else token

/-- The backslash-escape table used inside single-quoted strings
(`mapping.get(esc, esc)` in scripts/extract_tables.py). -/
def escMap (c : Char) : Char :=
  if c == 'n' then '\n'
  else if c == 'r' then '\r'
  else if c == 't' then '\t'
  else if c == '\'' then '\''
  else if c == '"' then '"'
  else if c == '\\' then '\\'
  else c

/-- The mutable state of the `parse_values_blob` scan: completed rows,
the row under construction, the field accumulator, the parenthesis
depth (a Python int, so it may go negative) and the in-string flag. -/
structure PState where
  rows : List (List String)
  cur_row : List String
  cur : List Char
  depth : Int
  in_str : Bool

/-- One finalized field: `"".join(cur).strip()` passed through
`sql_token_to_text`. -/
def finalizeField (cur : List Char) : String :=
  sql_token_to_text (pyStrip (String.mk cur))

/-- One not-in-string step of the `parse_values_blob` scan (the branch
of the loop body taken when `in_str` is false; it never looks ahead). -/
def stepNoString (c : Char) (st : PState) : PState :=
  if c == '\'' then { st with in_str := true }
  else if c == '(' then
    if st.depth == 0 then { st with cur_row := [], cur := [], depth := st.depth + 1 }
    else { st with cur := st.cur ++ [c], depth := st.depth + 1 }
  else if c == ')' then
    if st.depth - 1 == 0 then
      { st with
          rows := st.rows ++ [st.cur_row ++ [finalizeField st.cur]],
          cur_row := [], cur := [], depth := st.depth - 1 }
    else { st with cur := st.cur ++ [c], depth := st.depth - 1 }
  else if c == ',' && st.depth == 1 then
    { st with cur_row := st.cur_row ++ [finalizeField st.cur], cur := [] }
  else if c == ';' && st.depth == 0 then st
  else { st with cur := st.cur ++ [c] }

/-- The character scan of `parse_values_blob` (the `while i < n` loop
of scripts/extract_tables.py), consuming one or two characters per
step exactly as the source does.  The in-string branches are the only
ones that use the one-character lookahead `nxt`. -/
def parseValuesLoop : List Char → PState → PState
  | [], st => st
  | [c], st =>
    if st.in_str then
      if c == '\\' then { st with cur := st.cur ++ ['\\'] }
      else if c == '\'' then { st with in_str := false }
      else { st with cur := st.cur ++ [c] }
    else stepNoString c st
  | c :: d :: rest, st =>
    if st.in_str then
      if c == '\\' then
        parseValuesLoop rest { st with cur := st.cur ++ [escMap d] }
      else if c == '\'' then
        if d == '\'' then parseValuesLoop rest { st with cur := st.cur ++ ['\''] }
        else parseValuesLoop (d :: rest) { st with in_str := false }
      else
        parseValuesLoop (d :: rest) { st with cur := st.cur ++ [c] }
    else
      parseValuesLoop (d :: rest) (stepNoString c st)

/-- The initial scan state of `parse_values_blob`. -/
def initState : PState := ⟨[], [], [], 0, false⟩

/-- `parse_values_blob` from scripts/extract_tables.py. -/
def parse_values_blob (blob : String) : List (List String) :=
  (parseValuesLoop blob.data initState).rows

/-- `_split_insert` from scripts/extract_tables.py: locate the first
parenthesized group (the column list), then the first occurrence of
`VALUES` (case-insensitively) in the remainder; `none` models the
`(None, None)` return on any failure (including the `ValueError` of
`str.index`). -/
def _split_insert (chunk : String) : Option (List String × String) :=
  match findCharIdx chunk.data '(' with
  | none => none
  | some pos_open =>
    match findCharIdxFrom chunk.data ')' (pos_open + 1) with
    | none => none
    | some pos_close =>
      let cols_str := String.mk ((chunk.data.drop (pos_open + 1)).take (pos_close - (pos_open + 1)))
      let rest := chunk.data.drop (pos_close + 1)
      match findSubstrIdx ("VALUES".data) (rest.map Char.toUpper) with
      | none => none
      | some idx_vals =>
        let values_blob := rstripSemiSet (String.mk (rest.drop (idx_vals + 6)))
        let cols := (splitComma cols_str.data).map (fun c => stripBT (pyStrip (String.mk c)))
        some (cols, values_blob)

/-- The line prefix `INSERT INTO backtick table backtick` that starts a
matching statement in `iter_insert_chunks`. -/
def insertPrefixFor (table : String) : String :=
  "INSERT INTO `" ++ table ++ "`"

/-- The line-scanning loop of `iter_insert_chunks` from
scripts/extract_tables.py, with the accumulator and the capturing flag
threaded explicitly. -/
def iterGo (table : String) : List String → List String → Bool → List (List String × String)
  | [], _, _ => []
  | raw :: fp, acc, capturing =>
    let line := rstripNL raw
    if !capturing then
      if startsWithS line (insertPrefixFor table) then
        if endsWithS (pyStrip line) ";" then
          match _split_insert (joinNL [line]) with
          | some cv => cv :: iterGo table fp [] false
          | none => iterGo table fp [] false
        else iterGo table fp [line] true
      else iterGo table fp acc capturing
    else
      if endsWithS (pyStrip line) ";" then
        match _split_insert (joinNL (acc ++ [line])) with
        | some cv => cv :: iterGo table fp [] false
        | none => iterGo table fp [] false
      else iterGo table fp (acc ++ [line]) true

/-- `iter_insert_chunks` from scripts/extract_tables.py, over a list of
input lines. -/
def iter_insert_chunks (fp : List String) (table : String) : List (List String × String) :=
  iterGo table fp [] false

/-- The (accumulator, capturing) state left by the scanning loop after
consuming a list of lines; used to reason about concatenated inputs. -/
def iterState (table : String) : List String → List String × Bool → List String × Bool
  | [], s => s
  | raw :: fp, s =>
    let line := rstripNL raw
    if !s.2 then
      if startsWithS line (insertPrefixFor table) then
        if endsWithS (pyStrip line) ";" then iterState table fp ([], false)
        else iterState table fp ([line], true)
      else iterState table fp s
    else
      if endsWithS (pyStrip line) ";" then iterState table fp ([], false)
      else iterState table fp (s.1 ++ [line], true)

/-- Row normalization at CSV write time, from `extract_table` in
scripts/extract_tables.py: pad a short row with empty fields, truncate
a long one. -/
def normalizeRow (header row : List String) : List String :=
  if row.length != header.length then
    if row.length < header.length then row ++ List.replicate (header.length - row.length) ""
    else row.take header.length
  else row

/-- The pure content of `extract_table` from scripts/extract_tables.py:
the CSV lines written for a stream of recognized statements (header
from the first statement, then every parsed row normalized to the
header width). -/
def extract_table_rows (chunks : List (List String × String)) : List (List String) :=
  match chunks with
  | [] => []
  | (cols, _) :: _ =>
    cols :: (chunks.map (fun cb => (parse_values_blob cb.2).map (normalizeRow cols))).flatten

/-- Spec-side mirror of the scanning loop of `iter_insert_chunks`: the
accumulated line blocks (chunks) it completes, before splitting. -/
def chunksGo (table : String) : List String → List String → Bool → List (List String)
  | [], _, _ => []
  | raw :: fp, acc, capturing =>
    let line := rstripNL raw
    if !capturing then
      if startsWithS line (insertPrefixFor table) then
        if endsWithS (pyStrip line) ";" then [line] :: chunksGo table fp [] false
        else chunksGo table fp [line] true
      else chunksGo table fp acc capturing
    else
      if endsWithS (pyStrip line) ";" then (acc ++ [line]) :: chunksGo table fp [] false
      else chunksGo table fp (acc ++ [line]) true

/-- The completed statement blocks of a whole scan. -/
def statementChunks (table : String) (fp : List String) : List (List String) :=
  chunksGo table fp [] false

/-- Shape of a completed statement block: it is nonempty, its first
line bears the `INSERT INTO` prefix for the table, its last line's
trimmed form ends with a semicolon, and no earlier line's trimmed form
does (so accumulation stops at the first such line, with no regard to
quoting). -/
def ChunkShape (table : String) (c : List String) : Prop :=
  (∃ h t, c = h :: t ∧ startsWithS h (insertPrefixFor table) = true)
  ∧ ∃ init lastLine, c = init ++ [lastLine]
      ∧ endsWithS (pyStrip lastLine) ";" = true
      ∧ ∀ l ∈ init, endsWithS (pyStrip l) ";" = false

/-- Number of row-closing events (a `)` seen outside a string at depth
exactly 1) contributed by one not-in-string scan step. -/
def closes (c : Char) (depth : Int) : Nat :=
  if c == ')' && depth - 1 == 0 then 1 else 0

/-- Depth after one not-in-string scan step. -/
def depthStep (c : Char) (depth : Int) : Int :=
  if c == '(' then depth + 1 else if c == ')' then depth - 1 else depth

/-- In-string flag after one not-in-string scan step. -/
def inStrStep (c : Char) : Bool := c == '\''

/-- Spec-side projection of the `parse_values_blob` scan: the number of
depth 1 → 0 closing-parenthesis events over the input, given the
starting depth and in-string flag. -/
def closedCount : List Char → Int → Bool → Nat
  | [], _, _ => 0
  | [c], depth, in_str => if in_str then 0 else closes c depth
  | c :: d :: rest, depth, in_str =>
    if in_str then
      if c == '\\' then closedCount rest depth true
      else if c == '\'' then
        if d == '\'' then closedCount rest depth true
        else closedCount (d :: rest) depth false
      else closedCount (d :: rest) depth true
    else closes c depth + closedCount (d :: rest) (depthStep c depth) (inStrStep c)

/-- A CSV row as read back by `csv.DictReader` in
scripts/unify_chants.py: an association list from column name to field
text. -/
abbrev Srow := List (String × String)

/-- Python `dict` lookup (`d[k]` / `d.get(k)`) on an
insertion-ordered association list. -/
def dictGet {A : Type} : List (String × A) → String → Option A
  | [], _ => none
  | (k', v) :: rest, k => if k' == k then some v else dictGet rest k

/-- Python `dict` assignment `d[k] = v`: overwrite the existing entry
for `k`, else append a new one (insertion order preserved). -/
def dictInsert {A : Type} : List (String × A) → String → A → List (String × A)
  | [], k, v => [(k, v)]
  | (k', v') :: rest, k, v =>
    if k' == k then (k, v) :: rest else (k', v') :: dictInsert rest k v

/-- Python `d.setdefault(k, []).append(v)`: append `v` to the list
stored under `k`, creating the entry on first use. -/
def dictAppend {A : Type} : List (String × List A) → String → A → List (String × List A)
  | [], k, v => [(k, [v])]
  | (k', vs) :: rest, k, v =>
    if k' == k then (k, vs ++ [v]) :: rest else (k', vs) :: dictAppend rest k v

/-- `row.get(key)` on a DictReader row (None when the column is absent). -/
def rowGet (s : Srow) (k : String) : Option String :=
  dictGet s k

/-- The `sources_by_id` index built by `main` in
scripts/unify_chants.py: rows are inserted in order, each insertion
overwriting any earlier entry with the same id; rows without an `id`
column are skipped. -/
def sources_by_id (sources : List Srow) : List (String × Srow) :=
  sources.foldl
    (fun m s =>
      match rowGet s "id" with
      | none => m
      | some sid => dictInsert m sid s) []

/-- One entry of a chant's `sources` list, as built by `main` in
scripts/unify_chants.py. -/
structure CsEntry where
  id : Option String
  page : Option String
  sequence : Option String
  extent : Option String
  source : Option Srow

/-- Build one `sources` entry from a bridge-table row, resolving the
secondary row through the `sources_by_id` index. -/
def mkCsEntry (sbi : List (String × Srow)) (cs : Srow) : CsEntry :=
  let src_id := rowGet cs "source"
  { id := src_id
    page := rowGet cs "page"
    sequence := rowGet cs "sequence"
    extent := rowGet cs "extent"
    source := match src_id with
      | none => none
      | some k => dictGet sbi k }

/-- The `sources_by_chant` grouping built by `main` in
scripts/unify_chants.py: bridge rows grouped by `chant_id` in
insertion order, rows without a `chant_id` column skipped. -/
def sources_by_chant (chant_sources : List Srow) (sbi : List (String × Srow)) : List (String × List CsEntry) :=
  chant_sources.foldl
    (fun m cs =>
      match rowGet cs "chant_id" with
      | none => m
      | some cid => dictAppend m cid (mkCsEntry sbi cs)) []

/-- The pure content of `main` in scripts/unify_chants.py (stage 2).
A missing input CSV is modelled by `none`; the three existence checks
run, in source order, before any output is produced, so a failure is
an `Except.error` carrying the message of the raised
`FileNotFoundError` and no output value exists on that path.  On
success the result is the list of emitted JSONL records: each chant
row paired with its (possibly empty) `sources` list. -/
def unify_main (chantsCsv sourcesCsv chantSourcesCsv : Option (List Srow)) :
    Except String (List (Srow × List CsEntry)) :=
  match chantsCsv with
  | none => Except.error "Missing chants CSV"
  | some chants =>
    match sourcesCsv with
    | none => Except.error "Missing sources CSV"
    | some sources =>
      match chantSourcesCsv with
      | none => Except.error "Missing chant-sources CSV"
      | some chant_sources =>
        let sbi := sources_by_id sources
        let sbc := sources_by_chant chant_sources sbi
        Except.ok (chants.map (fun chant =>
          (chant,
            match rowGet chant "id" with
            | none => []
            | some cid => (dictGet sbc cid).getD [])))

/-- Spec-side description of the duplicate-key policy actually used by
`sources_by_id`: the last row in the list whose `id` field equals the
key, if any. -/
def lastWithId (k : String) : List Srow → Option Srow
  | [] => none
  | s :: rest =>
    match lastWithId k rest with
    | some r => some r
    | none => if rowGet s "id" = some k then some s else none

theorem dictGet_dictInsert_same {A : Type} (m : List (String × A)) (k : String) (v : A) :
    dictGet (dictInsert m k v) k = some v := by
  induction m with
  | nil => simp [dictInsert, dictGet]
  | cons p rest ih =>
    obtain ⟨k', v'⟩ := p
    by_cases h : k' = k
    · subst h; simp [dictInsert, dictGet]
    · simp [dictInsert, dictGet, h, ih]

theorem dictGet_dictInsert_other {A : Type} (m : List (String × A)) (k sid : String) (v : A)
    (h : ¬ sid = k) : dictGet (dictInsert m sid v) k = dictGet m k := by
  induction m with
  | nil => simp [dictInsert, dictGet, h]
  | cons p rest ih =>
    obtain ⟨k', v'⟩ := p
    by_cases h' : k' = sid
    · subst h'; simp [dictInsert, dictGet, h]
    · simp [dictInsert, dictGet, h', ih]

theorem sources_by_id_go (l : List Srow) (m : List (String × Srow)) (k : String) :
    dictGet (l.foldl
      (fun m s =>
        match rowGet s "id" with
        | none => m
        | some sid => dictInsert m sid s) m) k
      = match lastWithId k l with
        | some r => some r
        | none => dictGet m k := by
  induction l generalizing m with
  | nil => simp [lastWithId]
  | cons s rest ih =>
    simp only [List.foldl_cons, lastWithId]
    rw [ih]
    cases hl : lastWithId k rest with
    | some r => simp
    | none =>
      cases hid : rowGet s "id" with
      | none => simp [hid]
      | some sid =>
        by_cases hk : sid = k
        · subst hk; simp [hid, dictGet_dictInsert_same]
        · simp [hid, hk, dictGet_dictInsert_other _ _ _ _ hk]

/-- Claim C1 (amended): when the join stage builds its index of
sources rows keyed by `id`, duplicate keys are resolved
last-match-wins: for every sources table, the mapping associates each
id with the last-appearing row bearing that id (rows without an `id`
column are skipped), and no error is raised on a collision (the index
is built by a total function). -/
theorem C1_sources_index_last_match_wins :
    ∀ (sources : List Srow) (k : String),
      dictGet (sources_by_id sources) k = lastWithId k sources := by
  intro sources k
  have h := sources_by_id_go sources [] k
  cases hl : lastWithId k sources <;> simp [hl, dictGet] at h <;> simp [sources_by_id, h, dictGet]

/-- Claim C1 is false as stated: for a sources table with two rows
sharing id 1, the index maps 1 to the second (last) row, not the
first-appearing one. -/
theorem C1_counterexample :
    dictGet (sources_by_id [[("id", "1"), ("name", "A")], [("id", "1"), ("name", "B")]]) "1"
      ≠ some [("id", "1"), ("name", "A")]
    ∧ dictGet (sources_by_id [[("id", "1"), ("name", "A")], [("id", "1"), ("name", "B")]]) "1"
      = some [("id", "1"), ("name", "B")] := by decide

/-- Claim C2 (amended): a finalized field decodes to the empty string
exactly when its trimmed, already-unescaped buffer case-insensitively
equals NULL or is itself empty; quoting information is lost during
tokenization, so a single-quoted string literal containing NULL is
NULL-mapped as well, while numeric-looking values remain text. -/
theorem C2_null_mapping_amended :
    (∀ token : String, sql_token_to_text token = "" ↔ (upperS token = "NULL" ∨ token = ""))
    ∧ parse_values_blob ("(" ++ sqS ++ "NULL" ++ sqS ++ ",NULL,123)") = [["", "", "123"]] := by
  constructor
  · intro token
    constructor
    · intro he
      by_cases h : upperS token = "NULL"
      · exact Or.inl h
      · right
        simpa [sql_token_to_text, h] using he
    · intro hor
      rcases hor with h | h
      · simp [sql_token_to_text, h]
      · subst h; decide
  · decide

/-- Claim C2 is false as stated: the single-quoted SQL string literal
NULL is NULL-mapped to the empty string, not decoded verbatim to the
text NULL. -/
theorem C2_counterexample :
    parse_values_blob ("(" ++ sqS ++ "NULL" ++ sqS ++ ")") = [[""]]
    ∧ parse_values_blob ("(" ++ sqS ++ "NULL" ++ sqS ++ ")") ≠ [["NULL"]] := by decide

/-- Claim C4: tokenizing the values blob `('a','b,c',NULL,123)` yields
exactly one row `["a", "b,c", "", "123"]`: a comma inside a
single-quoted string does not split fields, an unquoted NULL becomes
the empty string, and a number is kept as text. -/
theorem C4_tokenize_example :
    parse_values_blob ("(" ++ sqS ++ "a" ++ sqS ++ "," ++ sqS ++ "b,c" ++ sqS ++ ",NULL,123)")
      = [["a", "b,c", "", "123"]] := by decide

/-- Claim C5: inside a single-quoted string, a backslash escape is
decoded through the fixed table and the two input characters are
consumed as one unit; a doubled quote decodes to a single literal
quote without leaving the string; the table maps n, r and t to
newline, carriage return and tab and every other character (including
quote, double quote and backslash) to itself; hence the blob
containing a doubled quote and a backslash-n escape yields one row
with the quote and a real newline embedded. -/
theorem C5_escapes :
    (∀ (d : Char) (rest : List Char) (rows : List (List String)) (cur_row : List String)
        (cur : List Char) (depth : Int),
      parseValuesLoop ('\\' :: d :: rest) ⟨rows, cur_row, cur, depth, true⟩
        = parseValuesLoop rest ⟨rows, cur_row, cur ++ [escMap d], depth, true⟩)
    ∧ (∀ (rest : List Char) (rows : List (List String)) (cur_row : List String)
        (cur : List Char) (depth : Int),
      parseValuesLoop ('\'' :: '\'' :: rest) ⟨rows, cur_row, cur, depth, true⟩
        = parseValuesLoop rest ⟨rows, cur_row, cur ++ ['\''], depth, true⟩)
    ∧ (∀ c : Char, escMap c =
        if c = 'n' then '\n' else if c = 'r' then '\r' else if c = 't' then '\t' else c)
    ∧ parse_values_blob
        ("(" ++ sqS ++ "it" ++ sqS ++ sqS ++ "s" ++ sqS ++ "," ++ sqS ++ "line1\\nline2" ++ sqS ++ ")")
      = [["it" ++ sqS ++ "s", "line1\nline2"]] := by
  refine ⟨fun d rest rows cur_row cur depth => rfl,
          fun rest rows cur_row cur depth => rfl, ?_, by decide⟩
  intro c
  by_cases h1 : c = 'n'
  · subst h1; decide
  · by_cases h2 : c = 'r'
    · subst h2; decide
    · by_cases h3 : c = 't'
      · subst h3; decide
      · simp only [escMap, h1, h2, h3, if_false]
        by_cases h4 : c = '\''
        · subst h4; decide
        · by_cases h5 : c = '"'
          · subst h5; decide
          · by_cases h6 : c = '\\'
            · subst h6; decide
            · simp [h1, h2, h3, h4, h5, h6]

theorem stepNoString_spec (c : Char) (st : PState) (h : st.in_str = false) :
    (stepNoString c st).depth = depthStep c st.depth
    ∧ (stepNoString c st).in_str = inStrStep c
    ∧ ∃ new, (stepNoString c st).rows = st.rows ++ new ∧ new.length = closes c st.depth := by
  simp only [stepNoString, depthStep, inStrStep, closes]
  split_ifs <;> simp_all

theorem parseValuesLoop_rows (l : List Char) (st : PState) :
    ∃ new, (parseValuesLoop l st).rows = st.rows ++ new
      ∧ new.length = closedCount l st.depth st.in_str := by
  induction l, st using parseValuesLoop.induct with
  | case1 st => exact ⟨[], by simp [parseValuesLoop, closedCount]⟩
  | case2 c st hin hc =>
    exact ⟨[], by simp [parseValuesLoop, closedCount, hin, hc]⟩
  | case3 c st hin hc hc' =>
    exact ⟨[], by simp [parseValuesLoop, closedCount, hin, hc, hc']⟩
  | case4 c st hin hc hc' =>
    exact ⟨[], by simp [parseValuesLoop, closedCount, hin, hc, hc']⟩
  | case5 c st hin =>
    have hin' : st.in_str = false := by simpa using hin
    obtain ⟨hd, hi, new, hr, hl⟩ := stepNoString_spec c st hin'
    exact ⟨new, by simp [parseValuesLoop, closedCount, hin', hr, hl]⟩
  | case6 c d rest st hin hc ih =>
    obtain ⟨new, hr, hl⟩ := ih
    exact ⟨new, by simp_all [parseValuesLoop, closedCount, hin, hc]⟩
  | case7 c d rest st hin hc hc' hd ih =>
    obtain ⟨new, hr, hl⟩ := ih
    exact ⟨new, by simp_all [parseValuesLoop, closedCount, hin, hc, hc', hd]⟩
  | case8 c d rest st hin hc hc' hd ih =>
    obtain ⟨new, hr, hl⟩ := ih
    exact ⟨new, by simp_all [parseValuesLoop, closedCount, hin, hc, hc', hd]⟩
  | case9 c d rest st hin hc hc' ih =>
    obtain ⟨new, hr, hl⟩ := ih
    exact ⟨new, by simp_all [parseValuesLoop, closedCount, hin, hc, hc']⟩
  | case10 c d rest st hin ih =>
    have hin' : st.in_str = false := by simpa using hin
    obtain ⟨hd, hi, new1, hr1, hl1⟩ := stepNoString_spec c st hin'
    obtain ⟨new2, hr2, hl2⟩ := ih
    refine ⟨new1 ++ new2, ?_, ?_⟩
    · simp [parseValuesLoop, hin', hr2, hr1, List.append_assoc]
    · simp [closedCount, hin', hl2, hl1, hd, hi]

/-- Claim C6: for every input (including unbalanced quotes or
parentheses) the tokenizer scan terminates and returns normally — it
is a total function whose result extends the incoming row list — and
the number of returned rows is exactly the number of
closing-parenthesis events that brought the depth from 1 to 0 before
the anomaly or the end of input; concretely, an unbalanced-quote blob
and an unbalanced-parenthesis blob both yield exactly the rows closed
before the anomaly, without error. -/
theorem C6_tokenizer_total_best_effort :
    (∀ (l : List Char) (st : PState),
      ∃ new, (parseValuesLoop l st).rows = st.rows ++ new
        ∧ new.length = closedCount l st.depth st.in_str)
    ∧ parse_values_blob ("(" ++ sqS ++ "a" ++ sqS ++ "),(" ++ sqS ++ "b") = [["a"]]
    ∧ parse_values_blob "(1,(2,3)" = [] := by
  exact ⟨parseValuesLoop_rows, by decide, by decide⟩

/-- Claim C7: a completed statement in which the first parenthesis is
missing, the matching close parenthesis is missing, or the keyword
VALUES cannot be found after the first parenthesized group, makes
`_split_insert` return nothing; and in that case the scanning loop
yields nothing for the statement, resets its accumulator and capturing
state, and continues scanning the remaining stream (shown for both the
multi-line and the single-line completion paths). -/
theorem C7_split_failure_skips :
    (∀ chunk : String, findCharIdx chunk.data '(' = none → _split_insert chunk = none)
    ∧ (∀ (chunk : String) (p : Nat), findCharIdx chunk.data '(' = some p →
        findCharIdxFrom chunk.data ')' (p + 1) = none → _split_insert chunk = none)
    ∧ (∀ (chunk : String) (p q : Nat), findCharIdx chunk.data '(' = some p →
        findCharIdxFrom chunk.data ')' (p + 1) = some q →
        findSubstrIdx ("VALUES".data) ((chunk.data.drop (q + 1)).map Char.toUpper) = none →
        _split_insert chunk = none)
    ∧ (∀ (table raw : String) (fp acc : List String),
        endsWithS (pyStrip (rstripNL raw)) ";" = true →
        _split_insert (joinNL (acc ++ [rstripNL raw])) = none →
        iterGo table (raw :: fp) acc true = iterGo table fp [] false)
    ∧ (∀ (table raw : String) (fp acc : List String),
        startsWithS (rstripNL raw) (insertPrefixFor table) = true →
        endsWithS (pyStrip (rstripNL raw)) ";" = true →
        _split_insert (joinNL [rstripNL raw]) = none →
        iterGo table (raw :: fp) acc false = iterGo table fp [] false) := by
  refine ⟨?_, ?_, ?_, ?_, ?_⟩
  · intro chunk h
    simp [_split_insert, h]
  · intro chunk p h1 h2
    simp [_split_insert, h1, h2]
  · intro chunk p q h1 h2 h3
    simp only [_split_insert, h1, h2, h3]
  · intro table raw fp acc he hs
    simp [iterGo, he, hs]
  · intro table raw fp acc hp he hs
    simp [iterGo, hp, he, hs]

/-- Concrete instance of claim C7: a captured statement whose chunk
has no VALUES keyword is skipped and scanning resumes in the reset
state. -/
theorem C7_witness :
    iterGo "t" ["(1,2);", "INSERT INTO `t` (x) VALUES (9);"] ["INSERT INTO `t` (a,b)"] true
      = iterGo "t" ["INSERT INTO `t` (x) VALUES (9);"] [] false :=
  C7_split_failure_skips.2.2.2.1 "t" "(1,2);" ["INSERT INTO `t` (x) VALUES (9);"]
    ["INSERT INTO `t` (a,b)"] (by decide) (by decide)

/-- Claim C8: for a header of length H and a parsed row of length L,
the emitted row is the parsed row padded on the right with H - L empty
fields when L < H, and the first H fields when L > H; the result
always has exactly the header's length (the source rebinds a fresh
list, leaving the tokenizer's row list unchanged, which the
functional embedding reflects by construction). -/
theorem C8_normalize : ∀ (header row : List String),
    (row.length < header.length →
      normalizeRow header row = row ++ List.replicate (header.length - row.length) "")
    ∧ (header.length < row.length → normalizeRow header row = row.take header.length)
    ∧ (normalizeRow header row).length = header.length := by
  intro header row
  refine ⟨?_, ?_, ?_⟩
  · intro h
    have hne : row.length ≠ header.length := Nat.ne_of_lt h
    simp [normalizeRow, hne, h]
  · intro h
    have hne : row.length ≠ header.length := Nat.ne_of_gt h
    have hnl : ¬ row.length < header.length := Nat.not_lt.mpr (Nat.le_of_lt h)
    simp [normalizeRow, hne, hnl]
  · rcases Nat.lt_trichotomy row.length header.length with h | h | h
    · have hne : row.length ≠ header.length := Nat.ne_of_lt h
      simp [normalizeRow, hne, h]
      omega
    · simp [normalizeRow, h]
    · have hne : row.length ≠ header.length := Nat.ne_of_gt h
      have hnl : ¬ row.length < header.length := Nat.not_lt.mpr (Nat.le_of_lt h)
      simp [normalizeRow, hne, hnl]
      omega

/-- Concrete instance of claim C8: a header of length 3 pads a row of
length 2 with one empty field and truncates a row of length 4 to its
first 3 fields. -/
theorem C8_witness :
    List.length ["x", "y"] < List.length ["a", "b", "c"]
    ∧ normalizeRow ["a", "b", "c"] ["x", "y"]
        = ["x", "y"] ++ List.replicate (List.length ["a", "b", "c"] - List.length ["x", "y"]) ""
    ∧ normalizeRow ["a", "b", "c"] ["x", "y", "z", "w"]
        = List.take (List.length ["a", "b", "c"]) ["x", "y", "z", "w"] :=
  ⟨by decide, (C8_normalize ["a", "b", "c"] ["x", "y"]).1 (by decide),
    (C8_normalize ["a", "b", "c"] ["x", "y", "z", "w"]).2.1 (by decide)⟩

/-- Claim C9: if any of the three required input CSVs (chants,
sources, chant-sources) is absent, stage 2 raises an error before
producing any output: `unify_main` returns an error and no output
record list exists on that path. -/
theorem C9_missing_csv_fails : ∀ (c s b : Option (List Srow)),
    (c = none ∨ s = none ∨ b = none) →
    ∃ msg, unify_main c s b = Except.error msg := by
  intro c s b h
  rcases h with h | h | h
  · subst h; exact ⟨_, rfl⟩
  · subst h
    cases c with
    | none => exact ⟨_, rfl⟩
    | some _ => exact ⟨_, rfl⟩
  · subst h
    cases c with
    | none => exact ⟨_, rfl⟩
    | some _ =>
      cases s with
      | none => exact ⟨_, rfl⟩
      | some _ => exact ⟨_, rfl⟩

/-- Concrete instance of claim C9: a missing chants CSV aborts stage 2
with an error. -/
theorem C9_witness : ∃ msg, unify_main none (some []) (some []) = Except.error msg :=
  C9_missing_csv_fails none (some []) (some []) (Or.inl rfl)

theorem iterGo_eq_filterMap (table : String) (fp : List String) :
    ∀ (acc : List String) (capturing : Bool),
      iterGo table fp acc capturing
        = (chunksGo table fp acc capturing).filterMap (fun a => _split_insert (joinNL a)) := by
  induction fp with
  | nil => intro acc cap; rfl
  | cons raw fp ih =>
    intro acc cap
    simp only [iterGo, chunksGo]
    cases cap
    · by_cases hs : startsWithS (rstripNL raw) (insertPrefixFor table) = true
      · by_cases he : endsWithS (pyStrip (rstripNL raw)) ";" = true
        · simp only [hs, he, Bool.not_false, if_true, List.filterMap_cons]
          cases h : _split_insert (joinNL [rstripNL raw]) <;> simp [h, ih]
        · simp only [Bool.not_eq_true] at he
          simp [hs, he, ih]
      · simp only [Bool.not_eq_true] at hs
        simp [hs, ih]
    · by_cases he : endsWithS (pyStrip (rstripNL raw)) ";" = true
      · simp only [he, Bool.not_true, if_false, if_true, List.filterMap_cons]
        cases h : _split_insert (joinNL (acc ++ [rstripNL raw])) <;> simp [h, ih]
      · simp only [Bool.not_eq_true] at he
        simp [he, ih]

theorem chunksGo_shape (table : String) (fp : List String) :
    ∀ (acc : List String) (capturing : Bool),
      (capturing = true →
        (∃ h t, acc = h :: t ∧ startsWithS h (insertPrefixFor table) = true)
        ∧ ∀ l ∈ acc, endsWithS (pyStrip l) ";" = false) →
      ∀ c ∈ chunksGo table fp acc capturing, ChunkShape table c := by
  induction fp with
  | nil =>
    intro acc cap hinv c hc
    simp [chunksGo] at hc
  | cons raw fp ih =>
    intro acc cap hinv c hc
    simp only [chunksGo] at hc
    cases cap
    · by_cases hs : startsWithS (rstripNL raw) (insertPrefixFor table) = true
      · by_cases he : endsWithS (pyStrip (rstripNL raw)) ";" = true
        · simp only [hs, he, Bool.not_false, if_true, List.mem_cons] at hc
          rcases hc with hc | hc
          · subst hc
            exact ⟨⟨rstripNL raw, [], rfl, hs⟩, [], rstripNL raw, rfl, he, by simp⟩
          · exact ih [] false (by intro h; simp at h) c hc
        · simp only [Bool.not_eq_true] at he
          simp only [hs, he, Bool.not_false, if_true, if_false] at hc
          refine ih [rstripNL raw] true ?_ c hc
          intro _
          exact ⟨⟨rstripNL raw, [], rfl, hs⟩, by simpa using he⟩
      · simp only [Bool.not_eq_true] at hs
        simp only [hs, Bool.not_false, if_true, if_false] at hc
        exact ih acc false (by intro h; simp at h) c hc
    · obtain ⟨hhead, hall⟩ := hinv rfl
      by_cases he : endsWithS (pyStrip (rstripNL raw)) ";" = true
      · simp only [he, Bool.not_true, Bool.false_eq_true, if_false, if_true, List.mem_cons] at hc
        rcases hc with hc | hc
        · subst hc
          obtain ⟨h0, t0, hacc, hstart⟩ := hhead
          refine ⟨⟨h0, t0 ++ [rstripNL raw], by simp [hacc], hstart⟩,
                  acc, rstripNL raw, rfl, he, hall⟩
        · exact ih [] false (by intro h; simp at h) c hc
      · simp only [Bool.not_eq_true] at he
        simp only [he, Bool.not_true, Bool.false_eq_true, if_false] at hc
        refine ih (acc ++ [rstripNL raw]) true ?_ c hc
        intro _
        obtain ⟨h0, t0, hacc, hstart⟩ := hhead
        refine ⟨⟨h0, t0 ++ [rstripNL raw], by simp [hacc], hstart⟩, ?_⟩
        intro l hl
        rcases List.mem_append.mp hl with hl | hl
        · exact hall l hl
        · simp only [List.mem_singleton] at hl
          subst hl
          exact he

/-- Claim C3 (amended): every `(columns, values_blob)` pair yielded by
the Statement Recognizer comes from an accumulated statement block
whose first line bears the INSERT prefix, whose accumulation is
terminated by the first line whose whitespace-trimmed form ends with a
semicolon — with no regard to quoting, so a quoted semicolon at the
end of a line also terminates accumulation — and the yielded pairs are
exactly the successful splits of those blocks in order (the scan is a
pure function of the input lines, so re-scanning the same dump yields
identical pairs). -/
theorem C3_recognizer_chunks : ∀ (table : String) (fp : List String),
    iter_insert_chunks fp table
      = (statementChunks table fp).filterMap (fun a => _split_insert (joinNL a))
    ∧ ∀ c ∈ statementChunks table fp, ChunkShape table c := by
  intro table fp
  constructor
  · exact iterGo_eq_filterMap table fp [] false
  · exact chunksGo_shape table fp [] false (by intro h; simp at h)

/-- Claim C3 is false as stated: in this two-line statement the first
line ends with a semicolon that lies inside a single-quoted string
literal, yet accumulation stops there — the yielded blob is the
truncated text before the quoted semicolon, not the full two-line
tuple. -/
theorem C3_counterexample :
    iter_insert_chunks
        ["INSERT INTO `t` (a) VALUES (" ++ sqS ++ "x;", "y" ++ sqS ++ ");"] "t"
      = [(["a"], " (" ++ sqS ++ "x")]
    ∧ iter_insert_chunks
        ["INSERT INTO `t` (a) VALUES (" ++ sqS ++ "x;", "y" ++ sqS ++ ");"] "t"
      ≠ [(["a"], " (" ++ sqS ++ "x;\ny" ++ sqS ++ ")")] := by decide

/-- Concrete instance of claim C3 (amended): the single statement
block of a one-line dump has the required shape. -/
theorem C3_witness :
    ChunkShape "t" ["INSERT INTO `t` (a) VALUES (1);"] :=
  (C3_recognizer_chunks "t" ["INSERT INTO `t` (a) VALUES (1);"]).2
    ["INSERT INTO `t` (a) VALUES (1);"] (by decide)

theorem iterGo_append (table : String) (xs : List String) :
    ∀ (ys : List String) (acc : List String) (cap : Bool),
      iterGo table (xs ++ ys) acc cap
        = iterGo table xs acc cap
          ++ iterGo table ys (iterState table xs (acc, cap)).1 (iterState table xs (acc, cap)).2 := by
  induction xs with
  | nil =>
    intro ys acc cap
    simp [iterGo, iterState]
  | cons raw xs ih =>
    intro ys acc cap
    simp only [List.cons_append, iterGo, iterState]
    cases cap
    · by_cases hs : startsWithS (rstripNL raw) (insertPrefixFor table) = true
      · by_cases he : endsWithS (pyStrip (rstripNL raw)) ";" = true
        · simp only [hs, he, Bool.not_false, if_true]
          cases h : _split_insert (joinNL [rstripNL raw]) <;> simp [h, ih]
        · simp only [Bool.not_eq_true] at he
          simp [hs, he, ih]
      · simp only [Bool.not_eq_true] at hs
        simp [hs, ih]
    · by_cases he : endsWithS (pyStrip (rstripNL raw)) ";" = true
      · simp only [he, Bool.not_true, Bool.false_eq_true, if_false, if_true]
        cases h : _split_insert (joinNL (acc ++ [rstripNL raw])) <;> simp [h, ih]
      · simp only [Bool.not_eq_true] at he
        simp [he, ih]

theorem iterGo_no_semi (table : String) : ∀ (ys : List String),
    (∀ l ∈ ys, endsWithS (pyStrip (rstripNL l)) ";" = false) →
    ∀ (acc : List String) (cap : Bool), iterGo table ys acc cap = [] := by
  intro ys
  induction ys with
  | nil => intro _ acc cap; rfl
  | cons raw ys ih =>
    intro h acc cap
    have hr : endsWithS (pyStrip (rstripNL raw)) ";" = false := h raw (by simp)
    have ht : ∀ l ∈ ys, endsWithS (pyStrip (rstripNL l)) ";" = false :=
      fun l hl => h l (by simp [hl])
    simp only [iterGo]
    cases cap
    · by_cases hs : startsWithS (rstripNL raw) (insertPrefixFor table) = true
      · simp [hs, hr, ih ht]
      · simp only [Bool.not_eq_true] at hs
        simp [hs, ih ht]
    · simp [hr, ih ht]

/-- Claim C10: if the stream ends while the Recognizer is capturing a
statement (no remaining line whose trimmed form ends with a
semicolon), the partial accumulation is silently discarded: the scan
of an exhausted stream in capturing state yields nothing, and more
generally appending any suffix of lines none of which trim-ends with a
semicolon leaves the full scan's yielded pairs exactly those of the
prefix. -/
theorem C10_partial_discarded :
    (∀ (table : String) (acc : List String), iterGo table [] acc true = [])
    ∧ ∀ (table : String) (xs ys : List String),
        (∀ l ∈ ys, endsWithS (pyStrip (rstripNL l)) ";" = false) →
        iter_insert_chunks (xs ++ ys) table = iter_insert_chunks xs table := by
  constructor
  · intro table acc
    rfl
  · intro table xs ys h
    show iterGo table (xs ++ ys) [] false = iterGo table xs [] false
    rw [iterGo_append table xs ys [] false]
    rw [iterGo_no_semi table ys h]
    simp

/-- Concrete instance of claim C10: a trailing multi-line statement
that never reaches its semicolon yields nothing while the earlier
complete statement's pair is unaffected. -/
theorem C10_witness :
    iter_insert_chunks
        (["INSERT INTO `t` (a) VALUES (1);"] ++ ["INSERT INTO `t` (a) VALUES (2,", "3"]) "t"
      = iter_insert_chunks ["INSERT INTO `t` (a) VALUES (1);"] "t" :=
  C10_partial_discarded.2 "t" ["INSERT INTO `t` (a) VALUES (1);"]
    ["INSERT INTO `t` (a) VALUES (2,", "3"] (by decide)
